import Mathlib

/-!
Verification of the FuelFlow storage layer (`server/storage.ts`,
class `DatabaseStorage`).

The relational store is embedded shallowly: each table is a list of rows,
monetary amounts (stored as SQL numeric strings in the source) are `Int`,
ids are `Nat`, timestamps are `Nat` (an instant on a linear clock; a
calendar day is a block of `dayLen` consecutive instants).  Each storage
method becomes a function `Store → args → Store × Except String result`:
the returned `Store` is the state after the call, and `db.transaction`
blocks revert to the entry state on failure (rollback), exactly as the
driver guarantees.

A row insert can fail at the database layer (foreign-key violation); this
is modelled by the `products` id list: inserting a line item whose
`productId` is not a known product fails, and the enclosing transaction
rolls back.
-/

namespace FuelFlow

/-- A sales-transaction header row (table `sales_transactions`);
only the columns the claims mention are kept. -/
structure SalesTransactionRow where
  id : Nat
  stationId : Nat
  totalAmount : Int
  transactionDate : Nat
  deriving Repr, DecidableEq

/-- A sales-transaction line-item row (table `sales_transaction_items`). -/
structure SalesTransactionItemRow where
  transactionId : Nat
  productId : Nat
  quantity : Int
  unitPrice : Int
  totalPrice : Int
  deriving Repr, DecidableEq

/-- Caller-supplied header fields for `createSalesTransaction`
(`InsertSalesTransaction`): the id is generated by the database. -/
structure InsertSalesTransaction where
  stationId : Nat
  totalAmount : Int
  transactionDate : Nat
  deriving Repr, DecidableEq

/-- Caller-supplied line-item fields (`InsertSalesTransactionItem`);
`transactionId` is filled in by `createSalesTransaction` itself. -/
structure InsertSalesTransactionItem where
  productId : Nat
  quantity : Int
  unitPrice : Int
  totalPrice : Int
  deriving Repr, DecidableEq

/-- A purchase-order header row (table `purchase_orders`). -/
structure PurchaseOrderRow where
  id : Nat
  stationId : Nat
  status : String
  totalAmount : Int
  orderDate : Nat
  deriving Repr, DecidableEq

/-- A purchase-order line-item row (table `purchase_order_items`). -/
structure PurchaseOrderItemRow where
  orderId : Nat
  productId : Nat
  quantity : Int
  unitPrice : Int
  totalPrice : Int
  deriving Repr, DecidableEq

/-- Caller-supplied header fields for `createPurchaseOrder`
(`InsertPurchaseOrder`).  Modelled from the spec: the purchase-order
schema lives in `shared/schema.ts`, which is not part of the reviewed
sources; per the spec, "status starts at `pending`", i.e. the insert
payload of the creation path carries no status and the column default
`pending` applies. -/
structure InsertPurchaseOrder where
  stationId : Nat
  totalAmount : Int
  orderDate : Nat
  deriving Repr, DecidableEq

/-- Caller-supplied purchase-order line-item fields
(`InsertPurchaseOrderItem`); `orderId` is filled in by
`createPurchaseOrder`. -/
structure InsertPurchaseOrderItem where
  productId : Nat
  quantity : Int
  unitPrice : Int
  totalPrice : Int
  deriving Repr, DecidableEq

/-- A customer row (table `customers`); `outstandingAmount` is the signed
running balance. -/
structure CustomerRow where
  id : Nat
  outstandingAmount : Int
  deriving Repr, DecidableEq

/-- A tank row (table `tanks`). -/
structure TankRow where
  id : Nat
  capacity : Int
  currentStock : Int
  deriving Repr, DecidableEq

/-- The relational store: one list per table, plus the id sequence the
database uses to generate fresh header ids on insert.  `products` holds
the existing product ids (the foreign-key target of line items). -/
structure Store where
  products : List Nat
  salesTransactions : List SalesTransactionRow
  salesTransactionItems : List SalesTransactionItemRow
  purchaseOrders : List PurchaseOrderRow
  purchaseOrderItems : List PurchaseOrderItemRow
  customers : List CustomerRow
  tanks : List TankRow
  nextId : Nat
  deriving Repr, DecidableEq

/-- One step of the item-insert loop inside `createSalesTransaction`:
`tx.insert(salesTransactionItems).values({ ...item, transactionId })`.
Fails (foreign-key violation) when the item's `productId` does not
reference an existing product. -/
def insertSalesItemTx (s : Store) (txId : Nat)
    (it : InsertSalesTransactionItem) : Option Store :=
  if s.products.contains it.productId then
    some { s with salesTransactionItems := s.salesTransactionItems ++
      [⟨txId, it.productId, it.quantity, it.unitPrice, it.totalPrice⟩] }
  else
    none

/-- The `for (const item of itemsList)` loop of `createSalesTransaction`:
inserts the items in order, stopping at the first failed insert. -/
def insertSalesItemsLoop (txId : Nat) :
    Store → List InsertSalesTransactionItem → Option Store
  | s, [] => some s
  | s, it :: rest =>
    match insertSalesItemTx s txId it with
    | some s' => insertSalesItemsLoop txId s' rest
    | none => none

/-- The `items` argument of `createSalesTransaction` is typed `any[]` in
the source and guarded by `Array.isArray`; `none` stands for a non-array
value, `some l` for an actual array. -/
abbrev ItemsArg := Option (List InsertSalesTransactionItem)

/-- `DatabaseStorage.createSalesTransaction(insertTransaction, items)`:
inside one `db.transaction`, insert the header (the database assigns
`nextId` as its id), coerce `items` to a list (`Array.isArray(items) ?
items : []`), then insert each item with `transactionId` set to the new
header id.  On any failure the transaction rolls back: the returned store
is the entry store. -/
def createSalesTransaction (s : Store) (hdr : InsertSalesTransaction)
    (items : ItemsArg) : Store × Except String SalesTransactionRow :=
  let txRow : SalesTransactionRow :=
    ⟨s.nextId, hdr.stationId, hdr.totalAmount, hdr.transactionDate⟩
  let s1 : Store := { s with
    salesTransactions := s.salesTransactions ++ [txRow],
    nextId := s.nextId + 1 }
  let itemsList := items.getD []
  match insertSalesItemsLoop txRow.id s1 itemsList with
  | some s2 => (s2, .ok txRow)
  | none => (s, .error "rollback")

/-- The row a sales item insert produces for a given transaction id. -/
def salesItemRowOf (txId : Nat) (it : InsertSalesTransactionItem) :
    SalesTransactionItemRow :=
  ⟨txId, it.productId, it.quantity, it.unitPrice, it.totalPrice⟩

/-- `DatabaseStorage.deleteSalesTransactionSecure(id, stationId, role)`:
inside one `db.transaction`, a non-admin caller first selects the
transaction with `id = id AND stationId = stationId`; if none is found the
call throws `"Unauthorized to delete this transaction"` and the
transaction rolls back.  Otherwise items with `transactionId = id` are
deleted, then the header with that id. -/
def deleteSalesTransactionSecure (s : Store) (id stationId : Nat)
    (role : String) : Store × Except String Unit :=
  if role ≠ "admin" ∧
      (s.salesTransactions.find?
        (fun t => decide (t.id = id ∧ t.stationId = stationId))) = none then
    (s, .error "Unauthorized to delete this transaction")
  else
    ({ s with
        salesTransactionItems :=
          s.salesTransactionItems.filter (fun it => decide (¬ it.transactionId = id)),
        salesTransactions :=
          s.salesTransactions.filter (fun t => decide (¬ t.id = id)) },
     .ok ())

/-- `DatabaseStorage.deletePurchaseOrderSecure(id, stationId, role)`: the
purchase-order mirror of the secure sales delete, with error message
`"Unauthorized to delete this order"`. -/
def deletePurchaseOrderSecure (s : Store) (id stationId : Nat)
    (role : String) : Store × Except String Unit :=
  if role ≠ "admin" ∧
      (s.purchaseOrders.find?
        (fun o => decide (o.id = id ∧ o.stationId = stationId))) = none then
    (s, .error "Unauthorized to delete this order")
  else
    ({ s with
        purchaseOrderItems :=
          s.purchaseOrderItems.filter (fun it => decide (¬ it.orderId = id)),
        purchaseOrders :=
          s.purchaseOrders.filter (fun o => decide (¬ o.id = id)) },
     .ok ())

/-- The row a purchase-order item insert produces for a given order id. -/
def poItemRowOf (orderId : Nat) (it : InsertPurchaseOrderItem) :
    PurchaseOrderItemRow :=
  ⟨orderId, it.productId, it.quantity, it.unitPrice, it.totalPrice⟩

/-- One step of the item-insert loop inside `createPurchaseOrder`:
`tx.insert(purchaseOrderItems).values({ ...item, orderId })`; fails on a
foreign-key violation. -/
def insertPOItemTx (s : Store) (orderId : Nat)
    (it : InsertPurchaseOrderItem) : Option Store :=
  if s.products.contains it.productId then
    some { s with purchaseOrderItems := s.purchaseOrderItems ++
      [poItemRowOf orderId it] }
  else
    none

/-- The `for (const item of items)` loop of `createPurchaseOrder`. -/
def insertPOItemsLoop (orderId : Nat) :
    Store → List InsertPurchaseOrderItem → Option Store
  | s, [] => some s
  | s, it :: rest =>
    match insertPOItemTx s orderId it with
    | some s' => insertPOItemsLoop orderId s' rest
    | none => none

/-- `DatabaseStorage.createPurchaseOrder(insertOrder, items)`: inside one
`db.transaction`, insert the header then each item with `orderId` set to
the new header id; any failure rolls the whole unit back.  Modelled from
the spec for the status column: the schema (`shared/schema.ts`) is not
among the reviewed sources; per the spec "status starts at `pending`",
so the inserted header row takes the column default `pending`. -/
def createPurchaseOrder (s : Store) (ord : InsertPurchaseOrder)
    (items : List InsertPurchaseOrderItem) :
    Store × Except String PurchaseOrderRow :=
  let row : PurchaseOrderRow :=
    ⟨s.nextId, ord.stationId, "pending", ord.totalAmount, ord.orderDate⟩
  let s1 : Store := { s with
    purchaseOrders := s.purchaseOrders ++ [row],
    nextId := s.nextId + 1 }
  match insertPOItemsLoop row.id s1 items with
  | some s2 => (s2, .ok row)
  | none => (s, .error "rollback")

/-- `DatabaseStorage.updateTankStock(id, quantity)`:
`UPDATE tanks SET currentStock = quantity WHERE id = id`, returning the
updated row.  The quantity is written as given; there is no range check. -/
def updateTankStock (s : Store) (id : Nat) (quantity : Int) :
    Store × Option TankRow :=
  let tanks' := s.tanks.map
    (fun t => if t.id = id then { t with currentStock := quantity } else t)
  ({ s with tanks := tanks' }, tanks'.find? (fun t => decide (t.id = id)))

/-- `DatabaseStorage.updateCustomerBalance(id, amount)`:
`UPDATE customers SET outstandingAmount = amount WHERE id = id` — an
absolute set, not an increment. -/
def updateCustomerBalance (s : Store) (id : Nat) (amount : Int) :
    Store × Option CustomerRow :=
  let customers' := s.customers.map
    (fun c => if c.id = id then { c with outstandingAmount := amount } else c)
  ({ s with customers := customers' },
   customers'.find? (fun c => decide (c.id = id)))

/-! ### Dashboard aggregation (`getDashboardStats`) -/

/-- Length of a calendar day on the model's linear clock. -/
def dayLen : Nat := 86400

/-- `new Date(now.getFullYear(), now.getMonth(), now.getDate())`: the
first instant of the calendar day containing `t`. -/
def startOfDay (t : Nat) : Nat := (t / dayLen) * dayLen

/-- SQL `SUM(f) FILTER (...)` over a table scan: row-by-row accumulation
of `f x` over the rows satisfying `p`. -/
def sumWhere (p : α → Bool) (f : α → Int) : List α → Int
  | [] => 0
  | x :: xs => (if p x then f x else 0) + sumWhere p f xs

/-- SQL `COUNT(*)` over a table scan. -/
def countWhere (p : α → Bool) : List α → Nat
  | [] => 0
  | x :: xs => (if p x then 1 else 0) + countWhere p xs

/-- The dashboard fields the claims are about. -/
structure DashboardStats where
  todaysSalesTotal : Int
  todaysSalesCount : Nat
  payablesTotal : Int
  deriving Repr, DecidableEq

/-- `DatabaseStorage.getDashboardStats(stationId)`, restricted to the
queried fields the claims mention.  `todaysSales` filters on
`stationId = stationId AND transactionDate >= today` where `today` is the
start of the current calendar day; `payables` sums `totalAmount` over
purchase orders with `status = 'pending'` (the query's WHERE clause has
no station condition). -/
def getDashboardStats (s : Store) (stationId : Nat) (now : Nat) :
    DashboardStats :=
  let today := startOfDay now
  { todaysSalesTotal := sumWhere
      (fun t => decide (t.stationId = stationId ∧ today ≤ t.transactionDate))
      (·.totalAmount) s.salesTransactions,
    todaysSalesCount := countWhere
      (fun t => decide (t.stationId = stationId ∧ today ≤ t.transactionDate))
      s.salesTransactions,
    payablesTotal := sumWhere (fun o => decide (o.status = "pending"))
      (·.totalAmount) s.purchaseOrders }

/-- Transcribed from the claim's words, for comparison with the code: the
sum of `totalAmount` over exactly the purchase orders OF THE GIVEN STATION
whose status is `pending`. -/
def claimedStationPayables (s : Store) (stationId : Nat) : Int :=
  ((s.purchaseOrders.filter
      (fun o => decide (o.stationId = stationId ∧ o.status = "pending"))).map
    (·.totalAmount)).sum

/-- Transcribed from the claim's words, for comparison with the code: the
sum of `totalAmount` over exactly the station's sales transactions whose
`transactionDate` lies WITHIN the current calendar day (same day as
`now`; any other day, earlier or later, excluded). -/
def claimedSameDaySales (s : Store) (stationId : Nat) (now : Nat) : Int :=
  ((s.salesTransactions.filter
      (fun t => decide (t.stationId = stationId ∧
        t.transactionDate / dayLen = now / dayLen))).map
    (·.totalAmount)).sum

/-! ### Read-modify-write balance updates under concurrency

Callers of `updateCustomerBalance` follow a read-modify-write pattern:
read the customer's `outstandingAmount`, add the sale amount in
application code, write the absolute result back.  Two concurrent callers
are modelled as two clients whose atomic steps (one read, one write each)
interleave in an arbitrary schedule. -/

/-- The outstanding balance the application reads for a customer. -/
def getOutstanding (s : Store) (cid : Nat) : Int :=
  (((s.customers.find? (fun c => decide (c.id = cid))).map
    (·.outstandingAmount)).getD 0)

/-- An atomic step of client `c` (`c < 2`): its balance read or its
balance write. -/
inductive RMWStep where
  | read (c : Fin 2)
  | write (c : Fin 2)
  deriving Repr, DecidableEq

/-- Interleaved execution state: the store plus each client's register
holding the balance it has read (none before its read). -/
structure RMWState where
  store : Store
  regs : Fin 2 → Option Int

/-- Execute one step: a read loads the customer's current balance into
the client's register; a write calls `updateCustomerBalance` with
(read balance + that client's delta), the absolute value computed in
application code. -/
def rmwStep (cid : Nat) (delta : Fin 2 → Int) (st : RMWState) :
    RMWStep → RMWState
  | .read c =>
    { st with regs := fun c' =>
        if c' = c then some (getOutstanding st.store cid) else st.regs c' }
  | .write c =>
    match st.regs c with
    | some b =>
      { st with store := (updateCustomerBalance st.store cid (b + delta c)).1 }
    | none => st

/-- Run a whole interleaving schedule from a store with empty registers. -/
def runRMWSchedule (s : Store) (cid : Nat) (delta : Fin 2 → Int)
    (sched : List RMWStep) : Store :=
  (sched.foldl (rmwStep cid delta) ⟨s, fun _ => none⟩).store

/-! ### Concrete stores used to witness the theorems -/

/-- A small populated store: two products, one sales transaction (id 100,
station 1) with one item, one pending purchase order (id 200, station 1)
with one item, one customer, one tank. -/
def egStore : Store :=
  { products := [1, 2],
    salesTransactions := [⟨100, 1, 500, 0⟩],
    salesTransactionItems := [⟨100, 1, 2, 250, 500⟩],
    purchaseOrders := [⟨200, 1, "pending", 300, 0⟩],
    purchaseOrderItems := [⟨200, 1, 3, 100, 300⟩],
    customers := [⟨7, 0⟩],
    tanks := [⟨3, 10000, 7500⟩],
    nextId := 1000 }

/-- A sample sales header for station 1. -/
def egHdr : InsertSalesTransaction := ⟨1, 110, 5⟩

/-- Two valid sample items (product ids 1 and 2 exist in `egStore`). -/
def egItems : List InsertSalesTransactionItem :=
  [⟨1, 5, 10, 50⟩, ⟨2, 3, 20, 60⟩]

/-- Items whose second element references the absent product 9. -/
def egBadItems : List InsertSalesTransactionItem :=
  [⟨1, 5, 10, 50⟩, ⟨9, 3, 20, 60⟩]

/-- A sample purchase-order header for station 1. -/
def egOrder : InsertPurchaseOrder := ⟨1, 300, 5⟩

/-- Two valid sample purchase-order items. -/
def egPOItems : List InsertPurchaseOrderItem :=
  [⟨1, 3, 50, 150⟩, ⟨2, 5, 30, 150⟩]

/-- Purchase-order items whose first element references the absent
product 9. -/
def egBadPOItems : List InsertPurchaseOrderItem := [⟨9, 3, 50, 150⟩]

/-- Store for the payables counterexample: a single PENDING purchase
order of totalAmount 50 that belongs to station 2, and no other rows. -/
def payablesCexStore : Store :=
  { products := [],
    salesTransactions := [],
    salesTransactionItems := [],
    purchaseOrders := [⟨200, 2, "pending", 50, 0⟩],
    purchaseOrderItems := [],
    customers := [],
    tanks := [],
    nextId := 0 }

/-- Store for the today's-sales counterexample: a single transaction of
station 1 with totalAmount 70 dated at instant `dayLen`, i.e. on the day
AFTER day 0. -/
def todaysCexStore : Store :=
  { products := [],
    salesTransactions := [⟨100, 1, 70, dayLen⟩],
    salesTransactionItems := [],
    purchaseOrders := [],
    purchaseOrderItems := [],
    customers := [],
    tanks := [],
    nextId := 0 }

/-- Store for the lost-update run: one customer (id 1) with balance 0. -/
def lostUpdateStore : Store :=
  { products := [],
    salesTransactions := [],
    salesTransactionItems := [],
    purchaseOrders := [],
    purchaseOrderItems := [],
    customers := [⟨1, 0⟩],
    tanks := [],
    nextId := 0 }

/-- The deltas of the two concurrent credit sales: client 0 adds 100,
client 1 adds 200. -/
def lostUpdateDeltas : Fin 2 → Int := fun c => if c = 0 then 100 else 200

/-- The racing interleaving: both clients read the balance before either
writes. -/
def racingSchedule : List RMWStep := [.read 0, .read 1, .write 0, .write 1]

/-- A serial interleaving: client 0 completes before client 1 starts. -/
def serialSchedule : List RMWStep := [.read 0, .write 0, .read 1, .write 1]

/-! ### Lemmas about the item-insert loops and aggregation -/

lemma insertSalesItemsLoop_ok (txId : Nat) :
    ∀ (items : List InsertSalesTransactionItem) (s : Store),
    (∀ it ∈ items, s.products.contains it.productId) →
    insertSalesItemsLoop txId s items =
      some { s with salesTransactionItems :=
        s.salesTransactionItems ++ items.map (salesItemRowOf txId) } := by
  intro items
  induction items with
  | nil =>
    intro s _
    simp [insertSalesItemsLoop]
  | cons it rest ih =>
    intro s h
    have hit : s.products.contains it.productId := h it (List.mem_cons_self ..)
    rw [insertSalesItemsLoop]
    simp only [insertSalesItemTx, hit, if_true]
    rw [ih { s with salesTransactionItems := s.salesTransactionItems ++
        [{ transactionId := txId, productId := it.productId, quantity := it.quantity,
           unitPrice := it.unitPrice, totalPrice := it.totalPrice }] }
      (by intro x hx; exact h x (List.mem_cons_of_mem _ hx))]
    simp [salesItemRowOf, List.append_assoc]

lemma insertSalesItemsLoop_fail (txId : Nat) :
    ∀ (items : List InsertSalesTransactionItem) (s : Store),
    (∃ it ∈ items, ¬ s.products.contains it.productId) →
    insertSalesItemsLoop txId s items = none := by
  intro items
  induction items with
  | nil =>
    intro s h
    rcases h with ⟨it, hmem, _⟩
    exact absurd hmem (List.not_mem_nil it)
  | cons it rest ih =>
    intro s h
    rw [insertSalesItemsLoop]
    by_cases hc : s.products.contains it.productId
    · rw [insertSalesItemTx, if_pos hc]
      apply ih
      rcases h with ⟨x, hmem, hx⟩
      rcases List.mem_cons.mp hmem with heq | hm
      · subst heq; exact absurd hc hx
      · exact ⟨x, hm, by simpa using hx⟩
    · rw [insertSalesItemTx, if_neg hc]

lemma insertPOItemsLoop_ok (orderId : Nat) :
    ∀ (items : List InsertPurchaseOrderItem) (s : Store),
    (∀ it ∈ items, s.products.contains it.productId) →
    insertPOItemsLoop orderId s items =
      some { s with purchaseOrderItems :=
        s.purchaseOrderItems ++ items.map (poItemRowOf orderId) } := by
  intro items
  induction items with
  | nil =>
    intro s _
    simp [insertPOItemsLoop]
  | cons it rest ih =>
    intro s h
    have hit : s.products.contains it.productId := h it (List.mem_cons_self ..)
    rw [insertPOItemsLoop]
    simp only [insertPOItemTx, hit, if_true]
    rw [ih { s with purchaseOrderItems := s.purchaseOrderItems ++
        [poItemRowOf orderId it] }
      (by intro x hx; exact h x (List.mem_cons_of_mem _ hx))]
    simp [List.append_assoc]

lemma insertPOItemsLoop_fail (orderId : Nat) :
    ∀ (items : List InsertPurchaseOrderItem) (s : Store),
    (∃ it ∈ items, ¬ s.products.contains it.productId) →
    insertPOItemsLoop orderId s items = none := by
  intro items
  induction items with
  | nil =>
    intro s h
    rcases h with ⟨it, hmem, _⟩
    exact absurd hmem (List.not_mem_nil it)
  | cons it rest ih =>
    intro s h
    rw [insertPOItemsLoop]
    by_cases hc : s.products.contains it.productId
    · rw [insertPOItemTx, if_pos hc]
      apply ih
      rcases h with ⟨x, hmem, hx⟩
      rcases List.mem_cons.mp hmem with heq | hm
      · subst heq; exact absurd hc hx
      · exact ⟨x, hm, by simpa using hx⟩
    · rw [insertPOItemTx, if_neg hc]

lemma sumWhere_eq_filter_sum (p : α → Bool) (f : α → Int) :
    ∀ l : List α, sumWhere p f l = ((l.filter p).map f).sum := by
  intro l
  induction l with
  | nil => simp [sumWhere]
  | cons x xs ih =>
    rw [sumWhere, ih]
    by_cases hx : p x
    · simp [hx]
    · simp [hx]

/-! ### Claim theorems -/

/-- C1: for every header and every non-empty list of N valid items,
`createSalesTransaction` persists exactly 1 header row and N item rows as
a single atomic unit; if any item insert fails, the whole operation rolls
back and neither the header nor any item row persists. -/
theorem createSalesTransaction_atomic (s : Store) (hdr : InsertSalesTransaction)
    (items : List InsertSalesTransactionItem) :
    ((items ≠ [] ∧ ∀ it ∈ items, s.products.contains it.productId) →
      createSalesTransaction s hdr (some items) =
        ({ s with
            salesTransactions := s.salesTransactions ++
              [⟨s.nextId, hdr.stationId, hdr.totalAmount, hdr.transactionDate⟩],
            salesTransactionItems :=
              s.salesTransactionItems ++ items.map (salesItemRowOf s.nextId),
            nextId := s.nextId + 1 },
         .ok ⟨s.nextId, hdr.stationId, hdr.totalAmount, hdr.transactionDate⟩) ∧
      (createSalesTransaction s hdr (some items)).1.salesTransactions.length =
        s.salesTransactions.length + 1 ∧
      (createSalesTransaction s hdr (some items)).1.salesTransactionItems.length =
        s.salesTransactionItems.length + items.length) ∧
    ((∃ it ∈ items, ¬ s.products.contains it.productId) →
      createSalesTransaction s hdr (some items) = (s, .error "rollback")) := by
  constructor
  · rintro ⟨-, hvalid⟩
    have key := insertSalesItemsLoop_ok s.nextId items
      ({ s with
          salesTransactions := s.salesTransactions ++
            [⟨s.nextId, hdr.stationId, hdr.totalAmount, hdr.transactionDate⟩],
          nextId := s.nextId + 1 }) hvalid
    have heq : createSalesTransaction s hdr (some items) =
        ({ s with
            salesTransactions := s.salesTransactions ++
              [⟨s.nextId, hdr.stationId, hdr.totalAmount, hdr.transactionDate⟩],
            salesTransactionItems :=
              s.salesTransactionItems ++ items.map (salesItemRowOf s.nextId),
            nextId := s.nextId + 1 },
         .ok ⟨s.nextId, hdr.stationId, hdr.totalAmount, hdr.transactionDate⟩) := by
      simp only [createSalesTransaction, Option.getD]
      rw [key]
    refine ⟨heq, ?_, ?_⟩ <;> rw [heq] <;> simp
  · rintro ⟨it, hmem, hbad⟩
    have key := insertSalesItemsLoop_fail s.nextId items
      ({ s with
          salesTransactions := s.salesTransactions ++
            [⟨s.nextId, hdr.stationId, hdr.totalAmount, hdr.transactionDate⟩],
          nextId := s.nextId + 1 }) ⟨it, hmem, hbad⟩
    simp only [createSalesTransaction, Option.getD]
    rw [key]

/-- Witness for C1: a concrete successful creation of 2 items and a
concrete rollback on a bad item. -/
theorem createSalesTransaction_atomic_witness :
    (egItems ≠ [] ∧ ∀ it ∈ egItems, egStore.products.contains it.productId) ∧
    (createSalesTransaction egStore egHdr (some egItems)).1.salesTransactions.length =
      egStore.salesTransactions.length + 1 ∧
    (createSalesTransaction egStore egHdr (some egItems)).1.salesTransactionItems.length =
      egStore.salesTransactionItems.length + egItems.length ∧
    createSalesTransaction egStore egHdr (some egBadItems) =
      (egStore, .error "rollback") :=
  ⟨⟨by decide, by decide⟩,
   ((createSalesTransaction_atomic egStore egHdr egItems).1
     ⟨by decide, by decide⟩).2.1,
   ((createSalesTransaction_atomic egStore egHdr egItems).1
     ⟨by decide, by decide⟩).2.2,
   (createSalesTransaction_atomic egStore egHdr egBadItems).2
     ⟨⟨9, 3, 20, 60⟩, by decide, by decide⟩⟩

/-- C9: `createSalesTransaction` performs no non-emptiness check: with a
non-array items value (coerced to `[]` by the `Array.isArray` guard) or
an empty list, the call succeeds and persists a header row with zero item
rows. -/
theorem createSalesTransaction_no_emptiness_check (s : Store)
    (hdr : InsertSalesTransaction) :
    createSalesTransaction s hdr none =
      ({ s with
          salesTransactions := s.salesTransactions ++
            [⟨s.nextId, hdr.stationId, hdr.totalAmount, hdr.transactionDate⟩],
          nextId := s.nextId + 1 },
       .ok ⟨s.nextId, hdr.stationId, hdr.totalAmount, hdr.transactionDate⟩) ∧
    createSalesTransaction s hdr (some []) = createSalesTransaction s hdr none ∧
    (createSalesTransaction s hdr none).1.salesTransactionItems =
      s.salesTransactionItems :=
  ⟨rfl, rfl, rfl⟩

/-- C2: called with a non-admin role and a caller stationId that differs
from the stored row's stationId (no row with the given id belongs to the
caller's station), both secure deletes fail with their authorization
error and leave every row unchanged. -/
theorem deleteSecure_cross_station (s : Store) (id stationId : Nat)
    (role : String) (hrole : role ≠ "admin")
    (hsales : ∀ t ∈ s.salesTransactions, t.id = id → t.stationId ≠ stationId)
    (horders : ∀ o ∈ s.purchaseOrders, o.id = id → o.stationId ≠ stationId) :
    deleteSalesTransactionSecure s id stationId role =
      (s, .error "Unauthorized to delete this transaction") ∧
    deletePurchaseOrderSecure s id stationId role =
      (s, .error "Unauthorized to delete this order") := by
  constructor
  · have hfind : (s.salesTransactions.find?
        (fun t => decide (t.id = id ∧ t.stationId = stationId))) = none := by
      apply List.find?_eq_none.mpr
      intro t ht
      simp only [decide_eq_true_eq, not_and]
      intro h1
      exact hsales t ht h1
    rw [deleteSalesTransactionSecure, if_pos ⟨hrole, hfind⟩]
  · have hfind : (s.purchaseOrders.find?
        (fun o => decide (o.id = id ∧ o.stationId = stationId))) = none := by
      apply List.find?_eq_none.mpr
      intro o ho
      simp only [decide_eq_true_eq, not_and]
      intro h1
      exact horders o ho h1
    rw [deletePurchaseOrderSecure, if_pos ⟨hrole, hfind⟩]

/-- Witness for C2: a manager of station 2 cannot delete transaction 100
or order 200 of station 1; the store is untouched. -/
theorem deleteSecure_cross_station_witness :
    deleteSalesTransactionSecure egStore 100 2 "manager" =
      (egStore, .error "Unauthorized to delete this transaction") ∧
    deletePurchaseOrderSecure egStore 100 2 "manager" =
      (egStore, .error "Unauthorized to delete this order") :=
  deleteSecure_cross_station egStore 100 2 "manager"
    (by decide) (by decide) (by decide)

/-- C7: for an authorized caller (admin role, or a stored row with the
given id and the caller's stationId), `deleteSalesTransactionSecure`
removes the header row and every item row whose transactionId equals the
id, within one transaction; afterwards no item row referencing the
deleted header remains. -/
theorem deleteSalesTransactionSecure_cascades (s : Store) (id stationId : Nat)
    (role : String)
    (hauth : role = "admin" ∨
      ∃ t ∈ s.salesTransactions, t.id = id ∧ t.stationId = stationId) :
    deleteSalesTransactionSecure s id stationId role =
      ({ s with
          salesTransactionItems :=
            s.salesTransactionItems.filter (fun it => decide (¬ it.transactionId = id)),
          salesTransactions :=
            s.salesTransactions.filter (fun t => decide (¬ t.id = id)) },
       .ok ()) ∧
    (∀ it ∈ (deleteSalesTransactionSecure s id stationId role).1.salesTransactionItems,
      it.transactionId ≠ id) ∧
    (∀ t ∈ (deleteSalesTransactionSecure s id stationId role).1.salesTransactions,
      t.id ≠ id) := by
  have hneg : ¬ (role ≠ "admin" ∧ (s.salesTransactions.find?
      (fun t => decide (t.id = id ∧ t.stationId = stationId))) = none) := by
    rcases hauth with h | ⟨t, ht, h1, h2⟩
    · rintro ⟨hr, -⟩
      exact hr h
    · rintro ⟨-, hnone⟩
      have := List.find?_eq_none.mp hnone t ht
      simp [h1, h2] at this
  have heq : deleteSalesTransactionSecure s id stationId role =
      ({ s with
          salesTransactionItems :=
            s.salesTransactionItems.filter (fun it => decide (¬ it.transactionId = id)),
          salesTransactions :=
            s.salesTransactions.filter (fun t => decide (¬ t.id = id)) },
       .ok ()) := by
    rw [deleteSalesTransactionSecure, if_neg hneg]
  refine ⟨heq, ?_, ?_⟩ <;> rw [heq] <;> intro x hx <;>
    simpa using (List.mem_filter.mp hx).2

/-- Witness for C7: a manager of station 1 deletes transaction 100; its
item row disappears from the store. -/
theorem deleteSalesTransactionSecure_cascades_witness :
    ("manager" = "admin" ∨
      ∃ t ∈ egStore.salesTransactions, t.id = 100 ∧ t.stationId = 1) ∧
    ∀ it ∈ (deleteSalesTransactionSecure egStore 100 1 "manager").1.salesTransactionItems,
      it.transactionId ≠ 100 :=
  ⟨Or.inr ⟨⟨100, 1, 500, 0⟩, by decide, by decide, by decide⟩,
   (deleteSalesTransactionSecure_cascades egStore 100 1 "manager"
     (Or.inr ⟨⟨100, 1, 500, 0⟩, by decide, by decide, by decide⟩)).2.1⟩

/-- C10: with an id matching no stored row, a non-admin caller receives
the authorization error (there is no not-found branch), while an admin
caller's call completes without error and changes no rows. -/
theorem deleteSecure_missing_id (s : Store) (id stationId : Nat) (role : String)
    (hnoSale : ∀ t ∈ s.salesTransactions, t.id ≠ id)
    (hnoOrder : ∀ o ∈ s.purchaseOrders, o.id ≠ id)
    (hnoItems : ∀ it ∈ s.salesTransactionItems, it.transactionId ≠ id)
    (hnoPOItems : ∀ it ∈ s.purchaseOrderItems, it.orderId ≠ id) :
    (role ≠ "admin" →
      deleteSalesTransactionSecure s id stationId role =
        (s, .error "Unauthorized to delete this transaction") ∧
      deletePurchaseOrderSecure s id stationId role =
        (s, .error "Unauthorized to delete this order")) ∧
    (deleteSalesTransactionSecure s id stationId "admin" = (s, .ok ()) ∧
     deletePurchaseOrderSecure s id stationId "admin" = (s, .ok ())) := by
  have hitems : s.salesTransactionItems.filter
      (fun it => decide (¬ it.transactionId = id)) = s.salesTransactionItems :=
    List.filter_eq_self.mpr (by intro x hx; simpa using hnoItems x hx)
  have hsales : s.salesTransactions.filter
      (fun t => decide (¬ t.id = id)) = s.salesTransactions :=
    List.filter_eq_self.mpr (by intro x hx; simpa using hnoSale x hx)
  have hpoitems : s.purchaseOrderItems.filter
      (fun it => decide (¬ it.orderId = id)) = s.purchaseOrderItems :=
    List.filter_eq_self.mpr (by intro x hx; simpa using hnoPOItems x hx)
  have hpos : s.purchaseOrders.filter
      (fun o => decide (¬ o.id = id)) = s.purchaseOrders :=
    List.filter_eq_self.mpr (by intro x hx; simpa using hnoOrder x hx)
  refine ⟨fun hrole => ⟨?_, ?_⟩, ?_, ?_⟩
  · have hfind : (s.salesTransactions.find?
        (fun t => decide (t.id = id ∧ t.stationId = stationId))) = none := by
      apply List.find?_eq_none.mpr
      intro t ht
      simp only [decide_eq_true_eq, not_and]
      intro h1
      exact absurd h1 (hnoSale t ht)
    rw [deleteSalesTransactionSecure, if_pos ⟨hrole, hfind⟩]
  · have hfind : (s.purchaseOrders.find?
        (fun o => decide (o.id = id ∧ o.stationId = stationId))) = none := by
      apply List.find?_eq_none.mpr
      intro o ho
      simp only [decide_eq_true_eq, not_and]
      intro h1
      exact absurd h1 (hnoOrder o ho)
    rw [deletePurchaseOrderSecure, if_pos ⟨hrole, hfind⟩]
  · rw [deleteSalesTransactionSecure,
      if_neg (by rintro ⟨hr, -⟩; exact hr rfl), hitems, hsales]
  · rw [deletePurchaseOrderSecure,
      if_neg (by rintro ⟨hr, -⟩; exact hr rfl), hpoitems, hpos]

/-- Witness for C10: id 999 matches nothing in `egStore`; a manager gets
the authorization error, an admin succeeds with the store unchanged. -/
theorem deleteSecure_missing_id_witness :
    (∀ t ∈ egStore.salesTransactions, t.id ≠ 999) ∧
    deleteSalesTransactionSecure egStore 999 1 "manager" =
      (egStore, .error "Unauthorized to delete this transaction") ∧
    deleteSalesTransactionSecure egStore 999 1 "admin" = (egStore, .ok ()) ∧
    deletePurchaseOrderSecure egStore 999 1 "admin" = (egStore, .ok ()) :=
  ⟨by decide,
   ((deleteSecure_missing_id egStore 999 1 "manager"
      (by decide) (by decide) (by decide) (by decide)).1 (by decide)).1,
   (deleteSecure_missing_id egStore 999 1 "manager"
      (by decide) (by decide) (by decide) (by decide)).2.1,
   (deleteSecure_missing_id egStore 999 1 "manager"
      (by decide) (by decide) (by decide) (by decide)).2.2⟩

/-- C5: `createPurchaseOrder` persists the header and all items
atomically (any item-insert failure rolls the whole unit back), and the
created order's status is `pending` (the spec-modelled schema default;
see `createPurchaseOrder`). -/
theorem createPurchaseOrder_atomic_pending (s : Store)
    (ord : InsertPurchaseOrder) (items : List InsertPurchaseOrderItem) :
    ((∀ it ∈ items, s.products.contains it.productId) →
      createPurchaseOrder s ord items =
        ({ s with
            purchaseOrders := s.purchaseOrders ++
              [⟨s.nextId, ord.stationId, "pending", ord.totalAmount, ord.orderDate⟩],
            purchaseOrderItems :=
              s.purchaseOrderItems ++ items.map (poItemRowOf s.nextId),
            nextId := s.nextId + 1 },
         .ok ⟨s.nextId, ord.stationId, "pending", ord.totalAmount, ord.orderDate⟩) ∧
      ∀ r ∈ (createPurchaseOrder s ord items).1.purchaseOrders,
        r ∉ s.purchaseOrders → r.status = "pending") ∧
    ((∃ it ∈ items, ¬ s.products.contains it.productId) →
      createPurchaseOrder s ord items = (s, .error "rollback")) := by
  constructor
  · intro hvalid
    have key := insertPOItemsLoop_ok s.nextId items
      ({ s with
          purchaseOrders := s.purchaseOrders ++
            [⟨s.nextId, ord.stationId, "pending", ord.totalAmount, ord.orderDate⟩],
          nextId := s.nextId + 1 }) hvalid
    have heq : createPurchaseOrder s ord items =
        ({ s with
            purchaseOrders := s.purchaseOrders ++
              [⟨s.nextId, ord.stationId, "pending", ord.totalAmount, ord.orderDate⟩],
            purchaseOrderItems :=
              s.purchaseOrderItems ++ items.map (poItemRowOf s.nextId),
            nextId := s.nextId + 1 },
         .ok ⟨s.nextId, ord.stationId, "pending", ord.totalAmount, ord.orderDate⟩) := by
      simp only [createPurchaseOrder]
      rw [key]
    refine ⟨heq, ?_⟩
    rw [heq]
    intro r hr hnot
    rcases List.mem_append.mp hr with h | h
    · exact absurd h hnot
    · simp only [List.mem_singleton] at h
      rw [h]
  · rintro ⟨it, hmem, hbad⟩
    have key := insertPOItemsLoop_fail s.nextId items
      ({ s with
          purchaseOrders := s.purchaseOrders ++
            [⟨s.nextId, ord.stationId, "pending", ord.totalAmount, ord.orderDate⟩],
          nextId := s.nextId + 1 }) ⟨it, hmem, hbad⟩
    simp only [createPurchaseOrder]
    rw [key]

/-- Witness for C5: a concrete order with two valid items is created with
status `pending`; one with a bad item rolls back. -/
theorem createPurchaseOrder_atomic_pending_witness :
    (∀ it ∈ egPOItems, egStore.products.contains it.productId) ∧
    (createPurchaseOrder egStore egOrder egPOItems).2 =
      .ok ⟨egStore.nextId, egOrder.stationId, "pending",
        egOrder.totalAmount, egOrder.orderDate⟩ ∧
    createPurchaseOrder egStore egOrder egBadPOItems =
      (egStore, .error "rollback") :=
  ⟨by decide,
   by rw [((createPurchaseOrder_atomic_pending egStore egOrder egPOItems).1
     (by decide)).1],
   (createPurchaseOrder_atomic_pending egStore egOrder egBadPOItems).2
     ⟨⟨9, 3, 50, 150⟩, by decide, by decide⟩⟩

/-- C8: `updateTankStock` writes exactly the given quantity — any `Int`,
negative or above capacity included — with no clamping and no error: the
matching tank rows get `currentStock = quantity`, all other rows are
untouched, and the table keeps its length. -/
theorem updateTankStock_sets_exact (s : Store) (id : Nat) (q : Int) :
    ((updateTankStock s id q).1.tanks =
      s.tanks.map (fun t => if t.id = id then { t with currentStock := q } else t)) ∧
    (∀ t' ∈ (updateTankStock s id q).1.tanks, t'.id = id → t'.currentStock = q) ∧
    (∀ t' ∈ (updateTankStock s id q).1.tanks, t'.id ≠ id → t' ∈ s.tanks) ∧
    (∀ t ∈ s.tanks, t.id = id →
      ({ t with currentStock := q } : TankRow) ∈ (updateTankStock s id q).1.tanks) ∧
    (updateTankStock s id q).1.tanks.length = s.tanks.length := by
  refine ⟨rfl, ?_, ?_, ?_, by simp [updateTankStock]⟩
  · intro t' ht' hid
    simp only [updateTankStock] at ht'
    rcases List.mem_map.mp ht' with ⟨t, ht, heq⟩
    by_cases hc : t.id = id
    · rw [if_pos hc] at heq
      rw [← heq]
    · rw [if_neg hc] at heq
      rw [← heq] at hid
      exact absurd hid hc
  · intro t' ht' hid
    simp only [updateTankStock] at ht'
    rcases List.mem_map.mp ht' with ⟨t, ht, heq⟩
    by_cases hc : t.id = id
    · rw [if_pos hc] at heq
      rw [← heq] at hid
      exact absurd hc hid
    · rw [if_neg hc] at heq
      rw [← heq]
      exact ht
  · intro t ht hc
    simp only [updateTankStock]
    apply List.mem_map.mpr
    exact ⟨t, ht, by rw [if_pos hc]⟩

/-- Witness for C8: writing −5 (below zero) into tank 3 of `egStore`
stores exactly −5. -/
theorem updateTankStock_sets_exact_witness :
    ((-5 : Int) < 0) ∧
    ∀ t' ∈ (updateTankStock egStore 3 (-5)).1.tanks,
      t'.id = 3 → t'.currentStock = -5 :=
  ⟨by decide, (updateTankStock_sets_exact egStore 3 (-5)).2.1⟩

/-- Counterexample to C3 as stated: querying station 1's dashboard on a
store whose only purchase order is a pending order of 50 at station 2,
the code's payables total is 50 while the claim's station-restricted sum
is 0. -/
theorem getDashboardStats_payables_cex :
    (getDashboardStats payablesCexStore 1 0).payablesTotal = 50 ∧
    claimedStationPayables payablesCexStore 1 = 0 ∧
    (getDashboardStats payablesCexStore 1 0).payablesTotal ≠
      claimedStationPayables payablesCexStore 1 := by decide

/-- C3 amended: `payables.totalPayable` equals the sum of `totalAmount`
over the pending purchase orders of ALL stations — the query filters on
status only — and is therefore independent of the queried station id. -/
theorem getDashboardStats_payables_amended (s : Store) (stationId now : Nat) :
    (getDashboardStats s stationId now).payablesTotal =
      ((s.purchaseOrders.filter (fun o => decide (o.status = "pending"))).map
        (·.totalAmount)).sum ∧
    ∀ stationId', (getDashboardStats s stationId now).payablesTotal =
      (getDashboardStats s stationId' now).payablesTotal :=
  ⟨sumWhere_eq_filter_sum _ _ _, fun _ => rfl⟩

/-- Counterexample to C4 as stated: with `now` inside day 0 and a single
station-1 transaction dated on day 1 (amount 70), the code counts it in
today's sales (the filter has no upper bound), while the claim's
same-calendar-day sum is 0. -/
theorem getDashboardStats_todaysSales_cex :
    (getDashboardStats todaysCexStore 1 0).todaysSalesTotal = 70 ∧
    claimedSameDaySales todaysCexStore 1 0 = 0 ∧
    (getDashboardStats todaysCexStore 1 0).todaysSalesTotal ≠
      claimedSameDaySales todaysCexStore 1 0 := by decide

/-- C4 amended: `todaysSales.totalAmount` equals the sum of `totalAmount`
over exactly that station's transactions whose calendar day is the
current day or any later day (`transactionDate` at or after the start of
the current day): earlier days contribute nothing, but future-dated
transactions are included. -/
theorem getDashboardStats_todaysSales_amended (s : Store) (stationId now : Nat) :
    (getDashboardStats s stationId now).todaysSalesTotal =
      ((s.salesTransactions.filter (fun t => decide (t.stationId = stationId ∧
          now / dayLen ≤ t.transactionDate / dayLen))).map
        (·.totalAmount)).sum := by
  simp only [getDashboardStats]
  rw [sumWhere_eq_filter_sum]
  congr 1
  apply congrArg
  apply List.filter_congr
  intro t ht
  simp only [decide_eq_decide]
  apply and_congr_right
  intro _
  rw [startOfDay]
  exact (Nat.le_div_iff_mul_le (by norm_num [dayLen])).symm

/-- C6 fails on the code — a lost update: starting from customer 1 at
balance 0, two concurrent credit sales of 100 and 200 whose reads both
happen before either write end with balance 200, not 0 + 100 + 200 = 300
(the serial order does give 300).  `updateCustomerBalance` writes an
absolute amount computed by the caller, so the interleaved write of the
second client overwrites the first client's delta. -/
theorem updateCustomerBalance_lost_update :
    getOutstanding
      (runRMWSchedule lostUpdateStore 1 lostUpdateDeltas racingSchedule) 1 = 200 ∧
    getOutstanding
      (runRMWSchedule lostUpdateStore 1 lostUpdateDeltas serialSchedule) 1 = 300 ∧
    (200 : Int) ≠ 0 + 100 + 200 := by decide

end FuelFlow
